import Mathlib

/-!
Shallow embedding of the PDF text-extraction core of the recruitee-mcp-server
repository.

Embedded code:
* `extract_pdf_text` from src/recruitee_mcp/server.py (download, pdfplumber
  page loop, trimming, counting, and the surrounding try/except).
* The backend-aggregation loop of `pdf_to_markdown` from pdf_to_markdown.py
  (the four backend attempts, `methods_attempted` bookkeeping, winner merge,
  and the all-failed result).

Exceptions are modelled with `Except String`: every operation that can raise
in the Python code is a field of an explicit world/input record, and the
try/except structure of the source is mirrored by matches on those values.
Python dicts whose key sets vary between code paths are modelled as
structures with `Option` fields, `none` meaning the key is absent.
-/

/-- ASCII whitespace as recognised by Python's str.strip and str.split. -/
def pySpace (c : Char) : Bool :=
  c = ' ' || c = '\t' || c = '\n' || c = '\r' || c = '\x0b' || c = '\x0c'

/-- Drop leading whitespace (the leading half of Python's str.strip). -/
def stripStart (l : List Char) : List Char := l.dropWhile pySpace

/-- Drop trailing whitespace (the trailing half of Python's str.strip). -/
def stripEnd (l : List Char) : List Char := (l.reverse.dropWhile pySpace).reverse

/-- Python's str.strip on a character list. -/
def stripL (l : List Char) : List Char := stripEnd (stripStart l)

/-- Python's str.strip. -/
def pyStrip (s : String) : String := ⟨stripL s.data⟩

/-- Worker for Python's str.split with no argument: splits on whitespace
runs and never yields empty tokens; acc holds the current word reversed. -/
def splitAux : List Char → List Char → List String
  | [], acc => if acc = [] then [] else [⟨acc.reverse⟩]
  | c :: cs, acc =>
    if pySpace c then
      if acc = [] then splitAux cs [] else ⟨acc.reverse⟩ :: splitAux cs []
    else splitAux cs (c :: acc)

/-- Python's str.split() (whitespace split, empty tokens dropped). -/
def pySplit (s : String) : List String := splitAux s.data []

/-- Right-fold concatenation of a list of strings. -/
def concatAll (l : List String) : String := l.foldr (· ++ ·) ""

/-- One entry of the pages list built by extract_pdf_text (server.py):
a dict with keys page_number and text. -/
structure PageResult where
  page_number : Nat
  text : String
deriving DecidableEq

/-- The metadata dict built by extract_pdf_text (server.py): page_count
plus the pdfplumber document metadata (pdf.metadata or an empty mapping). -/
structure PdfMeta where
  page_count : Nat
  kv : List (String × String)
deriving DecidableEq

/-- The dict returned by extract_pdf_text (server.py). Keys that are set
only on some code paths (metadata, character_count, word_count, error) are
Option fields, none meaning the key is absent from the returned dict. -/
structure ExtractResult where
  success : Bool
  error : Option String
  full_text : String
  pages : List PageResult
  page_count : Nat
  metadata : Option PdfMeta
  character_count : Option Nat
  word_count : Option Nat
deriving DecidableEq

/-- A pdfplumber document: per page, page.extract_text() either raises or
returns an optional string; pdf.metadata is an optional mapping. -/
structure PdfDoc where
  pages : List (Except String (Option String))
  metadata : Option (List (String × String))

/-- The effects extract_pdf_text (server.py) performs, as values: the HTTP
GET (raises, or yields a response status), response.read(), the temporary
file write, and pdfplumber.open. -/
structure PdfWorld where
  download : Except String Nat
  readBody : Except String Unit
  writeTemp : Except String Unit
  openPdf : Except String PdfDoc

/-- The failure dict of extract_pdf_text (server.py): success False, the
given error, empty full_text and pages, page_count 0; no metadata or count
keys. Both the HTTP-status early return and the except-branch return use
this shape. -/
def errorResult (e : String) : ExtractResult :=
  { success := false, error := some e, full_text := "", pages := [],
    page_count := 0, metadata := none, character_count := none,
    word_count := none }

/-- The page loop of extract_pdf_text (server.py): given the per-page
extract_text results and the 1-based number of the first page, returns the
pages_text list (pages with truthy text, text stripped) and the accumulated
full_text (each truthy page text followed by a blank-line separator). -/
def pageFold : List (Option String) → Nat → List PageResult × String
  | [], _ => ([], "")
  | t :: ts, k =>
    let rest := pageFold ts (k + 1)
    match t with
    | some s =>
      if s = "" then rest
      else (⟨k, pyStrip s⟩ :: rest.1, s ++ "\n\n" ++ rest.2)
    | none => rest

/-- Run page.extract_text() over every page in order; the first page that
raises aborts the loop with its exception (which the outer except catches). -/
def extractTexts : List (Except String (Option String)) → Except String (List (Option String))
  | [] => .ok []
  | .error e :: _ => .error e
  | .ok t :: rest =>
    match extractTexts rest with
    | .error e => .error e
    | .ok ts => .ok (t :: ts)

/-- The success dict of extract_pdf_text (server.py): stripped full_text,
the pages_text list, page_count = len(pdf.pages), metadata, and counts
computed from the accumulated (unstripped) full_text. -/
def successResult (pdf : PdfDoc) (texts : List (Option String)) : ExtractResult :=
  { success := true, error := none,
    full_text := pyStrip (pageFold texts 1).2,
    pages := (pageFold texts 1).1,
    page_count := pdf.pages.length,
    metadata := some ⟨pdf.pages.length, pdf.metadata.getD []⟩,
    character_count := some (pyStrip (pageFold texts 1).2).length,
    word_count := some (if (pageFold texts 1).2 = "" then 0
                        else (pySplit (pageFold texts 1).2).length) }

/-- The body of extract_pdf_text (server.py) inside the outer try: any
raising step propagates its exception; the non-200 HTTP status is an early
return of a failure dict, not an exception. -/
def extractBody (w : PdfWorld) : Except String ExtractResult :=
  match w.download with
  | .error e => .error e
  | .ok status =>
    if status ≠ 200 then .ok (errorResult ("HTTP " ++ toString status))
    else
      match w.readBody with
      | .error e => .error e
      | .ok _ =>
        match w.writeTemp with
        | .error e => .error e
        | .ok _ =>
          match w.openPdf with
          | .error e => .error e
          | .ok pdf =>
            match extractTexts pdf.pages with
            | .error e => .error e
            | .ok texts => .ok (successResult pdf texts)

/-- extract_pdf_text (server.py): the outer try/except converts any raised
exception into the failure dict with error = str(e). -/
def extract_pdf_text (w : PdfWorld) : ExtractResult :=
  match extractBody w with
  | .ok r => r
  | .error e => errorResult e

/-- Modelled from the spec: the ExtractionOutcome record of spec section 3.
The backend adapters _extract_with_pdfplumber, _extract_with_pymupdf,
_extract_with_pypdf2 and _extract_with_ocr are imported by
pdf_to_markdown.py from recruitee_mcp.server but are absent from the
sources; their result dicts carry these fields. -/
structure BackendOutcome where
  success : Bool
  full_text : String
  pages : List PageResult
  page_count : Nat
  character_count : Nat
  word_count : Nat
  metadata : List (String × String)
  error : Option String
deriving DecidableEq

/-- One extraction run of pdf_to_markdown (pdf_to_markdown.py): each
backend call either raises or returns an outcome dict, plus the use_ocr
flag. -/
structure RunInput where
  pdfplumber : Except String BackendOutcome
  pymupdf : Except String BackendOutcome
  pypdf2 : Except String BackendOutcome
  ocr : Except String BackendOutcome
  use_ocr : Bool

/-- The final result dict assembled by pdf_to_markdown (pdf_to_markdown.py).
Keys present only on some paths are Option fields, none meaning the key is
absent: the all-failed dict carries only success, error and
methods_attempted. -/
structure AggregatedResult where
  success : Bool
  error : Option String
  method_used : Option String
  methods_attempted : List String
  full_text : Option String
  pages : Option (List PageResult)
  page_count : Option Nat
  character_count : Option Nat
  word_count : Option Nat
  metadata : Option (List (String × String))
deriving DecidableEq

/-- One try/except block of pdf_to_markdown (pdf_to_markdown.py): on a
returned outcome with success True, append (name, result) to results and
the bare name to methods_attempted; on an exception, append the tagged
name to methods_attempted only; on a returned outcome with success False,
append nothing to either list. -/
def attemptStep (name : String) (att : Except String BackendOutcome)
    (acc : List (String × BackendOutcome) × List String) :
    List (String × BackendOutcome) × List String :=
  match att with
  | .ok r => if r.success then (acc.1 ++ [(name, r)], acc.2 ++ [name]) else acc
  | .error _ => (acc.1, acc.2 ++ [name ++ " (failed)"])

/-- The four backend attempts of pdf_to_markdown in their fixed order,
OCR only when use_ocr is set; returns (results, methods_attempted). -/
def runAttempts (inp : RunInput) : List (String × BackendOutcome) × List String :=
  let a := attemptStep "pdfplumber" inp.pdfplumber ([], [])
  let b := attemptStep "pymupdf" inp.pymupdf a
  let c := attemptStep "pypdf2" inp.pypdf2 b
  if inp.use_ocr then attemptStep "ocr" inp.ocr c else c

/-- Modelled from the spec: _choose_best_extraction is imported by
pdf_to_markdown.py from recruitee_mcp.server but is absent from the
sources. Spec section 4.3: primary key character_count descending,
tie-break original attempt order (first-attempted wins). -/
def _choose_best_extraction (best : String × BackendOutcome) :
    List (String × BackendOutcome) → String × BackendOutcome
  | [] => best
  | c :: cs =>
    _choose_best_extraction
      (if c.2.character_count > best.2.character_count then c else best) cs

/-- The result-assembly step of pdf_to_markdown (pdf_to_markdown.py): if no
backend yielded a successful outcome, the all-failed dict; otherwise the
winner's dict with method_used and methods_attempted merged in. -/
def pdf_to_markdown_aggregate (inp : RunInput) : AggregatedResult :=
  match (runAttempts inp).1 with
  | [] =>
    { success := false, error := some "All extraction methods failed",
      method_used := none, methods_attempted := (runAttempts inp).2,
      full_text := none, pages := none, page_count := none,
      character_count := none, word_count := none, metadata := none }
  | r :: rs =>
    { success := (_choose_best_extraction r rs).2.success,
      error := (_choose_best_extraction r rs).2.error,
      method_used := some (_choose_best_extraction r rs).1,
      methods_attempted := (runAttempts inp).2,
      full_text := some (_choose_best_extraction r rs).2.full_text,
      pages := some (_choose_best_extraction r rs).2.pages,
      page_count := some (_choose_best_extraction r rs).2.page_count,
      character_count := some (_choose_best_extraction r rs).2.character_count,
      word_count := some (_choose_best_extraction r rs).2.word_count,
      metadata := some (_choose_best_extraction r rs).2.metadata }

/-- The winner selected by the scorer sits in the candidate list, carries
the maximal character_count, and every earlier candidate has a strictly
smaller character_count (so on ties the earliest-attempted wins). -/
def IsBest (l : List (String × BackendOutcome)) (w : String × BackendOutcome) : Prop :=
  (∀ x ∈ l, x.2.character_count ≤ w.2.character_count) ∧
  ∃ pre post, l = pre ++ w :: post ∧
    ∀ x ∈ pre, x.2.character_count < w.2.character_count

/-- A backend outcome whose counts agree with its full_text, as the spec's
ExtractionOutcome contract requires of every adapter. -/
def ConsistentOutcome (o : BackendOutcome) : Prop :=
  o.character_count = (pyStrip o.full_text).length ∧
  o.word_count = (pySplit o.full_text).length

/-- A document with one page of text, one absent page and one empty page. -/
def docSuccess : PdfDoc :=
  { pages := [.ok (some " Hi there "), .ok none, .ok (some "")],
    metadata := none }

/-- A document that opens but yields no text on any page. -/
def docEmpty : PdfDoc :=
  { pages := [.ok none, .ok (some "")], metadata := some [("Title", "x")] }

/-- A document with two one-character pages. -/
def docTwo : PdfDoc :=
  { pages := [.ok (some "a"), .ok (some "b")], metadata := none }

/-- A world whose document parses into docSuccess. -/
def wSuccess : PdfWorld :=
  { download := .ok 200, readBody := .ok (), writeTemp := .ok (),
    openPdf := .ok docSuccess }

/-- A world whose document cannot be opened: pdfplumber.open raises. -/
def wCorrupt : PdfWorld :=
  { download := .ok 200, readBody := .ok (), writeTemp := .ok (),
    openPdf := .error "corrupt document" }

/-- A world whose document opens but no page yields any text. -/
def wEmptyDoc : PdfWorld :=
  { download := .ok 200, readBody := .ok (), writeTemp := .ok (),
    openPdf := .ok docEmpty }

/-- A world whose document has two one-character pages. -/
def wTwoPages : PdfWorld :=
  { download := .ok 200, readBody := .ok (), writeTemp := .ok (),
    openPdf := .ok docTwo }

/-- A successful backend outcome carrying the given character_count. -/
def mkOutcome (n : Nat) : BackendOutcome :=
  { success := true, full_text := "", pages := [], page_count := 0,
    character_count := n, word_count := 0, metadata := [], error := none }

/-- A backend outcome returned with success False (no exception raised). -/
def silentFail : BackendOutcome :=
  { success := false, full_text := "", pages := [], page_count := 0,
    character_count := 0, word_count := 0, metadata := [],
    error := some "no text" }

/-- A successful backend outcome whose counts match its full_text. -/
def outcomeHello : BackendOutcome :=
  { success := true, full_text := "hello world", pages := [], page_count := 1,
    character_count := 11, word_count := 2, metadata := [], error := none }

/-- Run input for the scorer scenario: two successes with character counts
500 and 1200, the rest raising. -/
def inpScore : RunInput :=
  { pdfplumber := .ok (mkOutcome 500), pymupdf := .ok (mkOutcome 1200),
    pypdf2 := .error "boom", ocr := .error "boom", use_ocr := false }

/-- Run input in which every backend raises. -/
def inpAllFail : RunInput :=
  { pdfplumber := .error "bad", pymupdf := .error "bad",
    pypdf2 := .error "bad", ocr := .error "bad", use_ocr := true }

/-- Run input in which the first backend returns success False without
raising and the rest raise. -/
def inpSilent : RunInput :=
  { pdfplumber := .ok silentFail, pymupdf := .error "boom",
    pypdf2 := .error "boom", ocr := .error "boom", use_ocr := true }

/-- Run input with OCR disabled and one successful structural backend. -/
def inpNoOcr : RunInput :=
  { pdfplumber := .ok outcomeHello, pymupdf := .error "boom",
    pypdf2 := .error "boom", ocr := .ok (mkOutcome 9999), use_ocr := false }

/-- Run input whose only candidate is a count-consistent outcome. -/
def inpHello : RunInput :=
  { pdfplumber := .ok outcomeHello, pymupdf := .error "boom",
    pypdf2 := .error "boom", ocr := .error "boom", use_ocr := false }

/-- The contribution of one backend attempt to the results list: the
(name, outcome) pair when the call returned success True, nothing when it
returned success False or raised. -/
def tagR (name : String) (att : Except String BackendOutcome) :
    List (String × BackendOutcome) :=
  match att with
  | .ok o => if o.success then [(name, o)] else []
  | .error _ => []

/-- The contribution of one backend attempt to methods_attempted: the bare
name when the call returned success True, the tagged name when it raised,
nothing when it returned success False. -/
def tagA (name : String) (att : Except String BackendOutcome) : List String :=
  match att with
  | .ok o => if o.success then [name] else []
  | .error _ => [name ++ " (failed)"]

/-- Whether a backend attempt returned an outcome with success True. -/
def succeededB : Except String BackendOutcome → Bool
  | .ok o => o.success
  | .error _ => false

/-- The slice a page's extracted text contributes to the accumulated
full_text: the raw text followed by a blank-line separator if truthy,
nothing otherwise. -/
def sepTag : Option String → Option String
  | some s => if s = "" then none else some (s ++ "\n\n")
  | none => none

theorem dropWhile_length_le (p : Char → Bool) (l : List Char) :
    (l.dropWhile p).length ≤ l.length := by
  induction l with
  | nil => simp
  | cons a t ih =>
    rw [List.dropWhile_cons]
    split
    · exact Nat.le_succ_of_le ih
    · simp

theorem stripStart_idem (l : List Char) : stripStart (stripStart l) = stripStart l :=
  List.dropWhile_idempotent pySpace l

theorem stripEnd_decomp (m : List Char) :
    ∃ ws, m = stripEnd m ++ ws ∧ ∀ c ∈ ws, pySpace c := by
  refine ⟨(m.reverse.takeWhile pySpace).reverse, ?_, ?_⟩
  · have key : (m.reverse.takeWhile pySpace ++ m.reverse.dropWhile pySpace).reverse = m := by
      rw [List.takeWhile_append_dropWhile, List.reverse_reverse]
    rw [List.reverse_append] at key
    exact key.symm
  · intro c hc
    exact List.mem_takeWhile_imp (List.mem_reverse.mp hc)

theorem stripStart_stripEnd (m : List Char) (h : stripStart m = m) :
    stripStart (stripEnd m) = stripEnd m := by
  obtain ⟨ws, hm, _⟩ := stripEnd_decomp m
  cases he : stripEnd m with
  | nil => rfl
  | cons c t =>
    have hc : pySpace c = false := by
      by_contra hc
      have hc' : pySpace c = true := by
        cases hcc : pySpace c with
        | false => exact absurd hcc hc
        | true => rfl
      have hm' : m = c :: (t ++ ws) := by rw [hm, he]; rfl
      have : stripStart m = (t ++ ws).dropWhile pySpace := by
        rw [hm']
        unfold stripStart
        rw [List.dropWhile_cons, if_pos hc']
      have hlen := dropWhile_length_le pySpace (t ++ ws)
      rw [h, hm'] at this
      have : (c :: (t ++ ws)).length ≤ (t ++ ws).length := this ▸ hlen
      simp at this
    unfold stripStart
    rw [List.dropWhile_cons, hc]
    simp

theorem stripEnd_idem (m : List Char) : stripEnd (stripEnd m) = stripEnd m := by
  unfold stripEnd
  rw [List.reverse_reverse, List.dropWhile_idempotent]

theorem stripL_idem (l : List Char) : stripL (stripL l) = stripL l := by
  unfold stripL
  rw [stripStart_stripEnd (stripStart l) (stripStart_idem l), stripEnd_idem]

theorem pyStrip_idem (s : String) : pyStrip (pyStrip s) = pyStrip s := by
  unfold pyStrip
  exact congrArg String.mk (stripL_idem s.data)

theorem splitAux_all_space (ws : List Char) (hws : ∀ c ∈ ws, pySpace c) :
    ∀ acc, splitAux ws acc = splitAux [] acc := by
  induction ws with
  | nil => intro acc; rfl
  | cons c ws' ih =>
    intro acc
    have hc : pySpace c = true := hws c (List.mem_cons_self c ws')
    have hws' : ∀ x ∈ ws', pySpace x = true :=
      fun x hx => hws x (List.mem_cons_of_mem c hx)
    have ih0 : splitAux ws' [] = [] := by
      rw [ih hws' []]
      rfl
    by_cases ha : acc = []
    · simp [splitAux, hc, ha, ih0]
    · simp [splitAux, hc, ha, ih0]

theorem splitAux_append_space (ws : List Char) (hws : ∀ c ∈ ws, pySpace c) :
    ∀ l acc, splitAux (l ++ ws) acc = splitAux l acc := by
  intro l
  induction l with
  | nil =>
    intro acc
    exact splitAux_all_space ws hws acc
  | cons c l' ih =>
    intro acc
    show splitAux (c :: (l' ++ ws)) acc = splitAux (c :: l') acc
    cases hc : pySpace c with
    | true =>
      by_cases ha : acc = []
      · simp [splitAux, hc, ha, ih]
      · simp [splitAux, hc, ha, ih]
    | false =>
      simp [splitAux, hc, ih]

theorem splitAux_stripStart (l : List Char) :
    splitAux (stripStart l) [] = splitAux l [] := by
  induction l with
  | nil => rfl
  | cons c cs ih =>
    cases hc : pySpace c with
    | true =>
      have h1 : stripStart (c :: cs) = stripStart cs := by
        unfold stripStart
        rw [List.dropWhile_cons, hc]
        simp
      rw [h1, ih]
      symm
      simp [splitAux, hc]
    | false =>
      have h1 : stripStart (c :: cs) = c :: cs := by
        unfold stripStart
        rw [List.dropWhile_cons, hc]
        simp
      rw [h1]

theorem splitAux_stripL (l : List Char) :
    splitAux (stripL l) [] = splitAux l [] := by
  obtain ⟨ws, hm, hws⟩ := stripEnd_decomp (stripStart l)
  unfold stripL
  calc splitAux (stripEnd (stripStart l)) []
      = splitAux (stripEnd (stripStart l) ++ ws) [] :=
        (splitAux_append_space ws hws _ _).symm
    _ = splitAux (stripStart l) [] := by rw [← hm]
    _ = splitAux l [] := splitAux_stripStart l

theorem pySplit_pyStrip (s : String) : pySplit (pyStrip s) = pySplit s :=
  splitAux_stripL s.data

theorem extract_ok (w : PdfWorld) (r : ExtractResult) (h : extractBody w = .ok r) :
    extract_pdf_text w = r := by
  unfold extract_pdf_text
  rw [h]

theorem extract_err (w : PdfWorld) (e : String) (h : extractBody w = .error e) :
    extract_pdf_text w = errorResult e := by
  unfold extract_pdf_text
  rw [h]

theorem body_ok_shape (w : PdfWorld) (r : ExtractResult) (h : extractBody w = .ok r) :
    (∃ status : Nat, r = errorResult ("HTTP " ++ toString status)) ∨
    (∃ pdf texts, w.openPdf = .ok pdf ∧ extractTexts pdf.pages = .ok texts ∧
      r = successResult pdf texts) := by
  unfold extractBody at h
  cases hd : w.download with
  | error e => rw [hd] at h; exact Except.noConfusion h
  | ok status =>
    rw [hd] at h
    dsimp only at h
    by_cases hs : status ≠ 200
    · rw [if_pos hs] at h
      injection h with h'
      exact Or.inl ⟨status, h'.symm⟩
    · rw [if_neg hs] at h
      cases hr : w.readBody with
      | error e => rw [hr] at h; exact Except.noConfusion h
      | ok u =>
        rw [hr] at h
        dsimp only at h
        cases hw : w.writeTemp with
        | error e => rw [hw] at h; exact Except.noConfusion h
        | ok u' =>
          rw [hw] at h
          dsimp only at h
          cases hp : w.openPdf with
          | error e => rw [hp] at h; exact Except.noConfusion h
          | ok pdf =>
            rw [hp] at h
            dsimp only at h
            cases ht : extractTexts pdf.pages with
            | error e => rw [ht] at h; exact Except.noConfusion h
            | ok texts =>
              rw [ht] at h
              dsimp only at h
              injection h with h'
              exact Or.inr ⟨pdf, texts, rfl, ht, h'.symm⟩

theorem success_shape (w : PdfWorld) (h : (extract_pdf_text w).success = true) :
    ∃ pdf texts, w.openPdf = .ok pdf ∧ extractTexts pdf.pages = .ok texts ∧
      extract_pdf_text w = successResult pdf texts := by
  cases hb : extractBody w with
  | error e =>
    rw [extract_err w e hb] at h
    simp [errorResult] at h
  | ok r =>
    have he := extract_ok w r hb
    rcases body_ok_shape w r hb with ⟨status, hr⟩ | ⟨pdf, texts, hp, ht, hr⟩
    · rw [he, hr] at h
      simp [errorResult] at h
    · exact ⟨pdf, texts, hp, ht, by rw [he, hr]⟩

theorem pageFold_mem : ∀ (texts : List (Option String)) (k : Nat) (pr : PageResult),
    pr ∈ (pageFold texts k).1 →
    ∃ i s, texts.get? i = some (some s) ∧ s ≠ "" ∧
      pr.page_number = k + i ∧ pr.text = pyStrip s := by
  intro texts
  induction texts with
  | nil =>
    intro k pr h
    simp [pageFold] at h
  | cons t ts ih =>
    intro k pr h
    match t with
    | none =>
      have h' : pr ∈ (pageFold ts (k + 1)).1 := by simpa [pageFold] using h
      obtain ⟨i, s, h1, h2, h3, h4⟩ := ih (k + 1) pr h'
      exact ⟨i + 1, s, by simpa using h1, h2, by omega, h4⟩
    | some s0 =>
      by_cases hs : s0 = ""
      · subst hs
        have h' : pr ∈ (pageFold ts (k + 1)).1 := by simpa [pageFold] using h
        obtain ⟨i, s, h1, h2, h3, h4⟩ := ih (k + 1) pr h'
        exact ⟨i + 1, s, by simpa using h1, h2, by omega, h4⟩
      · have h' : pr = ⟨k, pyStrip s0⟩ ∨ pr ∈ (pageFold ts (k + 1)).1 := by
          simpa [pageFold, hs] using h
        rcases h' with rfl | h'
        · exact ⟨0, s0, by simp, hs, by simp, rfl⟩
        · obtain ⟨i, s, h1, h2, h3, h4⟩ := ih (k + 1) pr h'
          exact ⟨i + 1, s, by simpa using h1, h2, by omega, h4⟩

theorem pageFold_bounds : ∀ (texts : List (Option String)) (k : Nat),
    (∀ pr ∈ (pageFold texts k).1, k ≤ pr.page_number) ∧
    List.Pairwise (fun a b => a.page_number < b.page_number) (pageFold texts k).1 := by
  intro texts
  induction texts with
  | nil =>
    intro k
    simp [pageFold]
  | cons t ts ih =>
    intro k
    obtain ⟨ihb, ihp⟩ := ih (k + 1)
    match t with
    | none =>
      refine ⟨?_, by simpa [pageFold] using ihp⟩
      intro pr h
      have h' : pr ∈ (pageFold ts (k + 1)).1 := by simpa [pageFold] using h
      exact Nat.le_trans (Nat.le_succ k) (ihb pr h')
    | some s0 =>
      by_cases hs : s0 = ""
      · subst hs
        refine ⟨?_, by simpa [pageFold] using ihp⟩
        intro pr h
        have h' : pr ∈ (pageFold ts (k + 1)).1 := by simpa [pageFold] using h
        exact Nat.le_trans (Nat.le_succ k) (ihb pr h')
      · constructor
        · intro pr h
          have h' : pr = ⟨k, pyStrip s0⟩ ∨ pr ∈ (pageFold ts (k + 1)).1 := by
            simpa [pageFold, hs] using h
          rcases h' with rfl | h'
          · exact Nat.le_refl k
          · exact Nat.le_trans (Nat.le_succ k) (ihb pr h')
        · have hgoal : (pageFold (some s0 :: ts) k).1 =
              ⟨k, pyStrip s0⟩ :: (pageFold ts (k + 1)).1 := by
            simp [pageFold, hs]
          rw [hgoal, List.pairwise_cons]
          refine ⟨?_, ihp⟩
          intro b hb
          exact Nat.lt_of_lt_of_le (Nat.lt_succ_self k) (ihb b hb)

theorem pageFold_empty : ∀ (texts : List (Option String)),
    (∀ t ∈ texts, t = none ∨ t = some "") → ∀ k, pageFold texts k = ([], "") := by
  intro texts
  induction texts with
  | nil => intro _ _; rfl
  | cons t ts ih =>
    intro h k
    have ht := h t (List.mem_cons_self t ts)
    have hts : ∀ x ∈ ts, x = none ∨ x = some "" :=
      fun x hx => h x (List.mem_cons_of_mem t hx)
    rcases ht with rfl | rfl
    · simp [pageFold, ih hts (k + 1)]
    · simp [pageFold, ih hts (k + 1)]

theorem pageFold_text : ∀ (texts : List (Option String)) (k : Nat),
    (pageFold texts k).2 = concatAll (texts.filterMap sepTag) := by
  intro texts
  induction texts with
  | nil => intro k; rfl
  | cons t ts ih =>
    intro k
    match t with
    | none => simp [pageFold, sepTag, List.filterMap_cons, ih (k + 1)]
    | some s0 =>
      by_cases hs : s0 = ""
      · subst hs
        simp [pageFold, sepTag, List.filterMap_cons, ih (k + 1)]
      · have h1 : (pageFold (some s0 :: ts) k).2 =
            s0 ++ "\n\n" ++ (pageFold ts (k + 1)).2 := by
          simp [pageFold, hs]
        have h2 : (some s0 :: ts).filterMap sepTag =
            (s0 ++ "\n\n") :: ts.filterMap sepTag := by
          simp [List.filterMap_cons, sepTag, hs]
        rw [h1, h2, ih (k + 1)]
        show s0 ++ "\n\n" ++ concatAll (ts.filterMap sepTag) =
          concatAll ((s0 ++ "\n\n") :: ts.filterMap sepTag)
        have h3 : concatAll ((s0 ++ "\n\n") :: ts.filterMap sepTag) =
            (s0 ++ "\n\n") ++ concatAll (ts.filterMap sepTag) := rfl
        rw [h3, String.append_assoc]

theorem attemptStep_eq (name : String) (att : Except String BackendOutcome)
    (rs : List (String × BackendOutcome)) (ms : List String) :
    attemptStep name att (rs, ms) = (rs ++ tagR name att, ms ++ tagA name att) := by
  cases att with
  | error e => simp [attemptStep, tagR, tagA]
  | ok o =>
    cases ho : o.success with
    | true => simp [attemptStep, tagR, tagA, ho]
    | false => simp [attemptStep, tagR, tagA, ho]

theorem runAttempts_fst (inp : RunInput) :
    (runAttempts inp).1 =
      tagR "pdfplumber" inp.pdfplumber ++ (tagR "pymupdf" inp.pymupdf ++
        (tagR "pypdf2" inp.pypdf2 ++
          (if inp.use_ocr then tagR "ocr" inp.ocr else []))) := by
  unfold runAttempts
  cases hoc : inp.use_ocr with
  | false => simp [attemptStep_eq, List.append_assoc]
  | true => simp [attemptStep_eq, List.append_assoc]

theorem runAttempts_snd (inp : RunInput) :
    (runAttempts inp).2 =
      tagA "pdfplumber" inp.pdfplumber ++ (tagA "pymupdf" inp.pymupdf ++
        (tagA "pypdf2" inp.pypdf2 ++
          (if inp.use_ocr then tagA "ocr" inp.ocr else []))) := by
  unfold runAttempts
  cases hoc : inp.use_ocr with
  | false => simp [attemptStep_eq, List.append_assoc]
  | true => simp [attemptStep_eq, List.append_assoc]

theorem mem_tagA (s name : String) (att : Except String BackendOutcome)
    (h : s ∈ tagA name att) : s = name ∨ s = name ++ " (failed)" := by
  cases att with
  | error e =>
    simp [tagA] at h
    exact Or.inr h
  | ok o =>
    cases ho : o.success with
    | true =>
      simp [tagA, ho] at h
      exact Or.inl h
    | false => simp [tagA, ho] at h

theorem mem_tagR (p : String × BackendOutcome) (name : String)
    (att : Except String BackendOutcome) (h : p ∈ tagR name att) :
    p.1 = name ∧ att = .ok p.2 ∧ p.2.success = true := by
  cases att with
  | error e => simp [tagR] at h
  | ok o =>
    cases ho : o.success with
    | true =>
      simp [tagR, ho] at h
      subst h
      exact ⟨rfl, rfl, ho⟩
    | false => simp [tagR, ho] at h

theorem tagR_nil (name : String) (att : Except String BackendOutcome)
    (h : succeededB att = false) : tagR name att = [] := by
  cases att with
  | error e => rfl
  | ok o =>
    have ho : o.success = false := h
    simp [tagR, ho]

theorem isBest_choose : ∀ (cs : List (String × BackendOutcome))
    (best : String × BackendOutcome),
    IsBest (best :: cs) (_choose_best_extraction best cs) := by
  intro cs
  induction cs with
  | nil =>
    intro best
    refine ⟨?_, [], [], rfl, by simp⟩
    intro x hx
    rw [List.mem_singleton] at hx
    subst hx
    exact Nat.le_refl _
  | cons c cs' ih =>
    intro best
    show IsBest (best :: c :: cs')
      (_choose_best_extraction
        (if c.2.character_count > best.2.character_count then c else best) cs')
    by_cases hbc : c.2.character_count > best.2.character_count
    · rw [if_pos hbc]
      obtain ⟨hmax, pre, post, hdec, hpre⟩ := ih c
      have hcw : c.2.character_count ≤
          (_choose_best_extraction c cs').2.character_count :=
        hmax c (List.mem_cons_self c cs')
      refine ⟨?_, best :: pre, post, ?_, ?_⟩
      · intro x hx
        rcases List.mem_cons.mp hx with rfl | hx'
        · exact Nat.le_trans (Nat.le_of_lt hbc) hcw
        · exact hmax x hx'
      · rw [List.cons_append, ← hdec]
      · intro x hx
        rcases List.mem_cons.mp hx with rfl | hx'
        · exact Nat.lt_of_lt_of_le hbc hcw
        · exact hpre x hx'
    · rw [if_neg hbc]
      have hcb : c.2.character_count ≤ best.2.character_count := Nat.le_of_not_lt hbc
      obtain ⟨hmax, pre, post, hdec, hpre⟩ := ih best
      have hbw : best.2.character_count ≤
          (_choose_best_extraction best cs').2.character_count :=
        hmax best (hdec ▸ List.mem_cons_self best cs')
      refine ⟨?_, ?_⟩
      · intro x hx
        rcases List.mem_cons.mp hx with rfl | hx'
        · exact hbw
        · rcases List.mem_cons.mp hx' with rfl | hx''
          · exact Nat.le_trans hcb hbw
          · exact hmax x (List.mem_cons_of_mem best hx'')
      · cases pre with
        | nil =>
          have h1 : best = _choose_best_extraction best cs' := by
            have := hdec
            simp at this
            exact this.1
          have h2 : cs' = post := by
            have := hdec
            simp at this
            exact this.2
          refine ⟨[], c :: post, ?_, by simp⟩
          rw [List.nil_append, ← h1, ← h2]
        | cons q pre' =>
          have h1 : best = q ∧ cs' = pre' ++ _choose_best_extraction best cs' :: post := by
            have := hdec
            rw [List.cons_append] at this
            exact ⟨(List.cons.injEq _ _ _ _ ▸ this).1, (List.cons.injEq _ _ _ _ ▸ this).2⟩
          obtain ⟨hq, hcs'⟩ := h1
          have hbltw : best.2.character_count <
              (_choose_best_extraction best cs').2.character_count := by
            have hh := hpre q (List.mem_cons_self q pre')
            rw [← hq] at hh
            exact hh
          refine ⟨best :: c :: pre', post, ?_, ?_⟩
          · rw [List.cons_append, List.cons_append, ← hcs']
          · intro x hx
            rcases List.mem_cons.mp hx with rfl | hx'
            · exact hbltw
            · rcases List.mem_cons.mp hx' with rfl | hx''
              · exact Nat.lt_of_le_of_lt hcb hbltw
              · exact hpre x (List.mem_cons_of_mem q hx'')

theorem choose_mem (best : String × BackendOutcome)
    (cs : List (String × BackendOutcome)) :
    _choose_best_extraction best cs ∈ best :: cs := by
  obtain ⟨_, pre, post, hdec, _⟩ := isBest_choose cs best
  rw [hdec]
  exact List.mem_append_right pre (List.mem_cons_self _ post)

theorem aggregate_nil (inp : RunInput) (h : (runAttempts inp).1 = []) :
    pdf_to_markdown_aggregate inp =
      { success := false, error := some "All extraction methods failed",
        method_used := none, methods_attempted := (runAttempts inp).2,
        full_text := none, pages := none, page_count := none,
        character_count := none, word_count := none, metadata := none } := by
  unfold pdf_to_markdown_aggregate
  rw [h]

theorem aggregate_cons (inp : RunInput) (r : String × BackendOutcome)
    (rs : List (String × BackendOutcome)) (h : (runAttempts inp).1 = r :: rs) :
    pdf_to_markdown_aggregate inp =
      { success := (_choose_best_extraction r rs).2.success,
        error := (_choose_best_extraction r rs).2.error,
        method_used := some (_choose_best_extraction r rs).1,
        methods_attempted := (runAttempts inp).2,
        full_text := some (_choose_best_extraction r rs).2.full_text,
        pages := some (_choose_best_extraction r rs).2.pages,
        page_count := some (_choose_best_extraction r rs).2.page_count,
        character_count := some (_choose_best_extraction r rs).2.character_count,
        word_count := some (_choose_best_extraction r rs).2.word_count,
        metadata := some (_choose_best_extraction r rs).2.metadata } := by
  unfold pdf_to_markdown_aggregate
  rw [h]

/-- C1: for every non-empty candidate list handed to the result scorer, the
selected candidate carries the maximal character_count, every earlier
candidate has a strictly smaller count (so ties go to the
earliest-attempted backend), and the aggregate's method_used and
character_count are the winner's. -/
theorem c1_scorer_picks_first_max (inp : RunInput) (c : String × BackendOutcome)
    (cs : List (String × BackendOutcome)) (att : List String)
    (h : runAttempts inp = (c :: cs, att)) :
    IsBest (c :: cs) (_choose_best_extraction c cs) ∧
    (pdf_to_markdown_aggregate inp).method_used =
      some (_choose_best_extraction c cs).1 ∧
    (pdf_to_markdown_aggregate inp).character_count =
      some (_choose_best_extraction c cs).2.character_count := by
  have h1 : (runAttempts inp).1 = c :: cs := by rw [h]
  rw [aggregate_cons inp c cs h1]
  exact ⟨isBest_choose cs c, rfl, rfl⟩

/-- C1 witness: pdfplumber yields 500 characters and pymupdf 1200, so the
winner is pymupdf and the aggregate reports character_count 1200. -/
theorem c1_scorer_picks_first_max_witness :
    IsBest [("pdfplumber", mkOutcome 500), ("pymupdf", mkOutcome 1200)]
      (_choose_best_extraction ("pdfplumber", mkOutcome 500)
        [("pymupdf", mkOutcome 1200)]) ∧
    (pdf_to_markdown_aggregate inpScore).method_used = some "pymupdf" ∧
    (pdf_to_markdown_aggregate inpScore).character_count = some 1200 := by
  have h := c1_scorer_picks_first_max inpScore ("pdfplumber", mkOutcome 500)
    [("pymupdf", mkOutcome 1200)] ["pdfplumber", "pymupdf", "pypdf2 (failed)"]
    (by decide)
  refine ⟨h.1, ?_, ?_⟩
  · rw [h.2.1]
    decide
  · rw [h.2.2]
    decide

/-- C2 counterexample: when every backend fails, the returned dict carries
no full_text key and no page_count key at all, so it does not satisfy
full_text = "" and page_count = 0 as the claim states. -/
theorem c2_all_failed_missing_keys :
    (pdf_to_markdown_aggregate inpAllFail).success = false ∧
    (pdf_to_markdown_aggregate inpAllFail).error =
      some "All extraction methods failed" ∧
    (pdf_to_markdown_aggregate inpAllFail).full_text ≠ some "" ∧
    (pdf_to_markdown_aggregate inpAllFail).page_count ≠ some 0 := by
  refine ⟨?_, ?_, ?_, ?_⟩ <;> decide

/-- C2 amended: when no backend returns a successful outcome, the result
dict has success False, error "All extraction methods failed" and the
recorded methods_attempted, with the full_text and page_count keys absent;
defaulting reads of those keys yield "" and 0. -/
theorem c2_all_failed_aggregate (inp : RunInput)
    (h1 : succeededB inp.pdfplumber = false)
    (h2 : succeededB inp.pymupdf = false)
    (h3 : succeededB inp.pypdf2 = false)
    (h4 : inp.use_ocr = true → succeededB inp.ocr = false) :
    pdf_to_markdown_aggregate inp =
      { success := false, error := some "All extraction methods failed",
        method_used := none, methods_attempted := (runAttempts inp).2,
        full_text := none, pages := none, page_count := none,
        character_count := none, word_count := none, metadata := none } ∧
    (pdf_to_markdown_aggregate inp).full_text.getD "" = "" ∧
    (pdf_to_markdown_aggregate inp).page_count.getD 0 = 0 := by
  have hr : (runAttempts inp).1 = [] := by
    rw [runAttempts_fst, tagR_nil _ _ h1, tagR_nil _ _ h2, tagR_nil _ _ h3]
    cases hoc : inp.use_ocr with
    | true =>
      rw [tagR_nil "ocr" inp.ocr (h4 hoc)]
      simp
    | false => simp
  have hagg := aggregate_nil inp hr
  refine ⟨hagg, ?_, ?_⟩
  · rw [hagg]
    rfl
  · rw [hagg]
    rfl

/-- C2 witness: with all four backends raising, the aggregate is exactly
the all-failed dict. -/
theorem c2_all_failed_aggregate_witness :
    pdf_to_markdown_aggregate inpAllFail =
      { success := false, error := some "All extraction methods failed",
        method_used := none, methods_attempted := (runAttempts inpAllFail).2,
        full_text := none, pages := none, page_count := none,
        character_count := none, word_count := none, metadata := none } ∧
    (pdf_to_markdown_aggregate inpAllFail).full_text.getD "" = "" ∧
    (pdf_to_markdown_aggregate inpAllFail).page_count.getD 0 = 0 :=
  c2_all_failed_aggregate inpAllFail rfl rfl rfl (fun _ => rfl)

/-- C3 counterexample: pdfplumber returns success False without raising;
although it was attempted, it appears in methods_attempted neither bare
nor tagged, so not every attempted backend is recorded. -/
theorem c3_silent_failure_unrecorded :
    (pdf_to_markdown_aggregate inpSilent).methods_attempted =
      ["pymupdf (failed)", "pypdf2 (failed)", "ocr (failed)"] ∧
    "pdfplumber" ∉ (pdf_to_markdown_aggregate inpSilent).methods_attempted ∧
    "pdfplumber (failed)" ∉
      (pdf_to_markdown_aggregate inpSilent).methods_attempted := by
  refine ⟨?_, ?_, ?_⟩ <;> decide

/-- C3 amended: methods_attempted lists, in invocation order, the bare name
of each backend whose call returned success True and the tagged name of
each backend whose call raised; a backend returning success False without
raising contributes no entry at all. -/
theorem c3_methods_attempted_tags (inp : RunInput) :
    (pdf_to_markdown_aggregate inp).methods_attempted =
      tagA "pdfplumber" inp.pdfplumber ++ (tagA "pymupdf" inp.pymupdf ++
        (tagA "pypdf2" inp.pypdf2 ++
          (if inp.use_ocr then tagA "ocr" inp.ocr else []))) := by
  have hm : (pdf_to_markdown_aggregate inp).methods_attempted =
      (runAttempts inp).2 := by
    cases hr : (runAttempts inp).1 with
    | nil => rw [aggregate_nil inp hr]
    | cons r rs => rw [aggregate_cons inp r rs hr]
  rw [hm, runAttempts_snd]

/-- C4: the extraction never raises past its boundary: every raised
internal fault is caught and converted into the failure dict with success
False and the diagnostic as error, and every unsuccessful result the
caller receives carries an error string. -/
theorem c4_never_raises (w : PdfWorld) :
    ((extract_pdf_text w).success = false →
      ∃ e, (extract_pdf_text w).error = some e) ∧
    (∀ e, extractBody w = .error e →
      extract_pdf_text w = errorResult e ∧
      (extract_pdf_text w).success = false ∧
      (extract_pdf_text w).error = some e) := by
  constructor
  · intro hf
    cases hb : extractBody w with
    | error e =>
      rw [extract_err w e hb]
      exact ⟨e, rfl⟩
    | ok r =>
      have he := extract_ok w r hb
      rcases body_ok_shape w r hb with ⟨status, hr⟩ | ⟨pdf, texts, hp, ht, hr⟩
      · rw [he, hr]
        exact ⟨_, rfl⟩
      · rw [he, hr] at hf
        simp [successResult] at hf
  · intro e he
    have h := extract_err w e he
    exact ⟨h, by rw [h]; rfl, by rw [h]; rfl⟩

/-- C4 witness: an unopenable document yields the failure dict with the
diagnostic as error rather than raising. -/
theorem c4_never_raises_witness :
    extract_pdf_text wCorrupt = errorResult "corrupt document" ∧
    (∃ e, (extract_pdf_text wCorrupt).error = some e) := by
  have h := c4_never_raises wCorrupt
  exact ⟨(h.2 "corrupt document" rfl).1, h.1 (by decide)⟩

/-- C5: on success the server extraction's character_count is the length
of the trimmed full_text and word_count is the whitespace-token count of
full_text; and an aggregate built from count-consistent backend outcomes
satisfies the same relation whichever backend wins. -/
theorem c5_counts_from_full_text :
    (∀ w : PdfWorld, (extract_pdf_text w).success = true →
      (extract_pdf_text w).character_count =
        some (pyStrip (extract_pdf_text w).full_text).length ∧
      (extract_pdf_text w).word_count =
        some (pySplit (extract_pdf_text w).full_text).length) ∧
    (∀ (inp : RunInput) (c : String × BackendOutcome)
        (cs : List (String × BackendOutcome)) (att : List String),
      runAttempts inp = (c :: cs, att) →
      (∀ x ∈ c :: cs, ConsistentOutcome x.2) →
      ∃ ft, (pdf_to_markdown_aggregate inp).full_text = some ft ∧
        (pdf_to_markdown_aggregate inp).character_count =
          some (pyStrip ft).length ∧
        (pdf_to_markdown_aggregate inp).word_count =
          some (pySplit ft).length) := by
  constructor
  · intro w hs
    obtain ⟨pdf, texts, hp, ht, hr⟩ := success_shape w hs
    rw [hr]
    constructor
    · show some (pyStrip (pageFold texts 1).2).length =
        some (pyStrip (pyStrip (pageFold texts 1).2)).length
      rw [pyStrip_idem]
    · show some (if (pageFold texts 1).2 = "" then 0
          else (pySplit (pageFold texts 1).2).length) =
        some (pySplit (pyStrip (pageFold texts 1).2)).length
      by_cases hft : (pageFold texts 1).2 = ""
      · rw [if_pos hft, hft]
        rfl
      · rw [if_neg hft, pySplit_pyStrip]
  · intro inp c cs att h hcons
    have h1 : (runAttempts inp).1 = c :: cs := by rw [h]
    rw [aggregate_cons inp c cs h1]
    obtain ⟨hcc, hwc⟩ := hcons (_choose_best_extraction c cs) (choose_mem c cs)
    exact ⟨(_choose_best_extraction c cs).2.full_text, rfl,
      by rw [hcc], by rw [hwc]⟩

/-- C5 witness: the three-page document and a consistent one-candidate
aggregate both satisfy the count relations. -/
theorem c5_counts_from_full_text_witness :
    ((extract_pdf_text wSuccess).character_count =
      some (pyStrip (extract_pdf_text wSuccess).full_text).length ∧
     (extract_pdf_text wSuccess).word_count =
      some (pySplit (extract_pdf_text wSuccess).full_text).length) ∧
    (∃ ft, (pdf_to_markdown_aggregate inpHello).full_text = some ft ∧
      (pdf_to_markdown_aggregate inpHello).character_count =
        some (pyStrip ft).length ∧
      (pdf_to_markdown_aggregate inpHello).word_count =
        some (pySplit ft).length) := by
  have h := c5_counts_from_full_text
  refine ⟨h.1 wSuccess (by decide), ?_⟩
  exact h.2 inpHello ("pdfplumber", outcomeHello) []
    ["pdfplumber", "pymupdf (failed)", "pypdf2 (failed)"] (by decide)
    (by
      intro x hx
      rw [List.mem_singleton] at hx
      subst hx
      refine ⟨?_, ?_⟩ <;> decide)

/-- C6: with use_ocr disabled the OCR backend is never attempted: neither
"ocr" nor "ocr (failed)" occurs in methods_attempted and no candidate in
the results list is named "ocr". -/
theorem c6_no_ocr_when_disabled (inp : RunInput) (h : inp.use_ocr = false) :
    "ocr" ∉ (pdf_to_markdown_aggregate inp).methods_attempted ∧
    "ocr (failed)" ∉ (pdf_to_markdown_aggregate inp).methods_attempted ∧
    ∀ p ∈ (runAttempts inp).1, p.1 ≠ "ocr" := by
  have hm : (pdf_to_markdown_aggregate inp).methods_attempted =
      (runAttempts inp).2 := by
    cases hr : (runAttempts inp).1 with
    | nil => rw [aggregate_nil inp hr]
    | cons r rs => rw [aggregate_cons inp r rs hr]
  have hsnd := runAttempts_snd inp
  rw [h] at hsnd
  simp only [Bool.false_eq_true, if_false, List.append_nil] at hsnd
  have hfst := runAttempts_fst inp
  rw [h] at hfst
  simp only [Bool.false_eq_true, if_false, List.append_nil] at hfst
  refine ⟨?_, ?_, ?_⟩
  · rw [hm, hsnd]
    intro hmem
    rcases List.mem_append.mp hmem with hx | hrest
    · rcases mem_tagA _ _ _ hx with h2 | h2 <;> exact absurd h2 (by decide)
    · rcases List.mem_append.mp hrest with hx | hx
      · rcases mem_tagA _ _ _ hx with h2 | h2 <;> exact absurd h2 (by decide)
      · rcases mem_tagA _ _ _ hx with h2 | h2 <;> exact absurd h2 (by decide)
  · rw [hm, hsnd]
    intro hmem
    rcases List.mem_append.mp hmem with hx | hrest
    · rcases mem_tagA _ _ _ hx with h2 | h2 <;> exact absurd h2 (by decide)
    · rcases List.mem_append.mp hrest with hx | hx
      · rcases mem_tagA _ _ _ hx with h2 | h2 <;> exact absurd h2 (by decide)
      · rcases mem_tagA _ _ _ hx with h2 | h2 <;> exact absurd h2 (by decide)
  · intro p hp heq
    rw [hfst] at hp
    rcases List.mem_append.mp hp with hx | hrest
    · have h2 := (mem_tagR _ _ _ hx).1
      rw [h2] at heq
      exact absurd heq (by decide)
    · rcases List.mem_append.mp hrest with hx | hx
      · have h2 := (mem_tagR _ _ _ hx).1
        rw [h2] at heq
        exact absurd heq (by decide)
      · have h2 := (mem_tagR _ _ _ hx).1
        rw [h2] at heq
        exact absurd heq (by decide)

/-- C6 witness: with OCR disabled and an OCR outcome of 9999 characters
available, no ocr entry appears anywhere. -/
theorem c6_no_ocr_when_disabled_witness :
    "ocr" ∉ (pdf_to_markdown_aggregate inpNoOcr).methods_attempted ∧
    "ocr (failed)" ∉ (pdf_to_markdown_aggregate inpNoOcr).methods_attempted ∧
    ∀ p ∈ (runAttempts inpNoOcr).1, p.1 ≠ "ocr" :=
  c6_no_ocr_when_disabled inpNoOcr rfl

/-- C7: for every document the extractor opens and reads successfully,
pages whose extracted text is absent or empty are omitted from pages while
page_count still counts all document pages, and every entry's text is the
trimmed per-page text of a page that yielded text. -/
theorem c7_empty_pages_skipped (w : PdfWorld) (pdf : PdfDoc)
    (texts : List (Option String)) (hp : w.openPdf = .ok pdf)
    (ht : extractTexts pdf.pages = .ok texts)
    (hs : (extract_pdf_text w).success = true) :
    (extract_pdf_text w).page_count = pdf.pages.length ∧
    (∀ pr ∈ (extract_pdf_text w).pages,
      ∃ s, texts.get? (pr.page_number - 1) = some (some s) ∧ s ≠ "" ∧
        pr.text = pyStrip s) ∧
    (∀ i, (texts.get? i = some none ∨ texts.get? i = some (some "")) →
      ∀ pr ∈ (extract_pdf_text w).pages, pr.page_number ≠ i + 1) := by
  obtain ⟨pdf', texts', hp', ht', hr⟩ := success_shape w hs
  rw [hp] at hp'
  injection hp' with hpe
  subst hpe
  rw [ht] at ht'
  injection ht' with hte
  subst hte
  rw [hr]
  refine ⟨rfl, ?_, ?_⟩
  · intro pr hpr
    have hpr' : pr ∈ (pageFold texts 1).1 := hpr
    obtain ⟨i, s, hget, hne, hpn, htext⟩ := pageFold_mem texts 1 pr hpr'
    have hidx : pr.page_number - 1 = i := by omega
    rw [hidx]
    exact ⟨s, hget, hne, htext⟩
  · intro i hi pr hpr heq
    have hpr' : pr ∈ (pageFold texts 1).1 := hpr
    obtain ⟨j, s, hget, hne, hpn, _⟩ := pageFold_mem texts 1 pr hpr'
    have hij : j = i := by omega
    subst hij
    rcases hi with hcase | hcase
    · rw [hcase] at hget
      exact absurd hget (by simp)
    · rw [hcase] at hget
      simp at hget
      exact hne hget.symm

/-- C7 witness: the three-page document keeps page_count 3 while only the
first page (with trimmed text) enters pages. -/
theorem c7_empty_pages_skipped_witness :
    (extract_pdf_text wSuccess).page_count = docSuccess.pages.length ∧
    (∀ pr ∈ (extract_pdf_text wSuccess).pages,
      ∃ s, [some " Hi there ", none, some ""].get? (pr.page_number - 1) =
        some (some s) ∧ s ≠ "" ∧ pr.text = pyStrip s) ∧
    (∀ i, ([some " Hi there ", none, some ""].get? i = some none ∨
        [some " Hi there ", none, some ""].get? i = some (some "")) →
      ∀ pr ∈ (extract_pdf_text wSuccess).pages, pr.page_number ≠ i + 1) :=
  c7_empty_pages_skipped wSuccess docSuccess [some " Hi there ", none, some ""]
    rfl rfl (by decide)

/-- C8 counterexample: with page texts "a" and "b" the extractor's
full_text is "a\n\nb" (blank-line separated), not the trimmed plain
concatenation "ab" of the page texts, so full_text is not exactly the
trimmed concatenation with no other content. -/
theorem c8_not_plain_concat :
    (extract_pdf_text wTwoPages).pages.map PageResult.text = ["a", "b"] ∧
    (extract_pdf_text wTwoPages).full_text ≠
      pyStrip (concatAll
        ((extract_pdf_text wTwoPages).pages.map PageResult.text)) ∧
    (extract_pdf_text wTwoPages).full_text = "a\n\nb" := by
  refine ⟨?_, ?_, ?_⟩ <;> decide

/-- C8 amended: on success full_text is the trimmed concatenation of the
truthy raw page texts, each followed by a blank-line separator; the
separators are the only content besides the page texts. -/
theorem c8_full_text_separator_concat (w : PdfWorld) (pdf : PdfDoc)
    (texts : List (Option String)) (hp : w.openPdf = .ok pdf)
    (ht : extractTexts pdf.pages = .ok texts)
    (hs : (extract_pdf_text w).success = true) :
    (extract_pdf_text w).full_text =
      pyStrip (concatAll (texts.filterMap sepTag)) := by
  obtain ⟨pdf', texts', hp', ht', hr⟩ := success_shape w hs
  rw [hp] at hp'
  injection hp' with hpe
  subst hpe
  rw [ht] at ht'
  injection ht' with hte
  subst hte
  rw [hr]
  show pyStrip (pageFold texts 1).2 = _
  rw [pageFold_text texts 1]

/-- C8 amended witness: for the two-page document full_text equals the
trimmed separator-joined page texts. -/
theorem c8_full_text_separator_concat_witness :
    (extract_pdf_text wTwoPages).full_text =
      pyStrip (concatAll ([some "a", some "b"].filterMap sepTag)) :=
  c8_full_text_separator_concat wTwoPages docTwo [some "a", some "b"]
    rfl rfl (by decide)

/-- C9: on success every page_number is positive (1-based) and the
page_number sequence is strictly increasing along pages, preserving
document order across skipped empty pages. -/
theorem c9_page_numbers_increasing (w : PdfWorld)
    (hs : (extract_pdf_text w).success = true) :
    (∀ pr ∈ (extract_pdf_text w).pages, 1 ≤ pr.page_number) ∧
    List.Pairwise (fun a b => a.page_number < b.page_number)
      (extract_pdf_text w).pages := by
  obtain ⟨pdf, texts, hp, ht, hr⟩ := success_shape w hs
  rw [hr]
  exact pageFold_bounds texts 1

/-- C9 witness: the three-page document's pages are 1-based and strictly
increasing. -/
theorem c9_page_numbers_increasing_witness :
    (∀ pr ∈ (extract_pdf_text wSuccess).pages, 1 ≤ pr.page_number) ∧
    List.Pairwise (fun a b => a.page_number < b.page_number)
      (extract_pdf_text wSuccess).pages :=
  c9_page_numbers_increasing wSuccess (by decide)

/-- C10: when the document opens and reads but no page yields text, the
result has success True, empty full_text, empty pages, zero counts and
page_count equal to the document's total page count. -/
theorem c10_success_without_text (w : PdfWorld) (pdf : PdfDoc)
    (texts : List (Option String)) (hd : w.download = .ok 200)
    (hb : w.readBody = .ok ()) (hw : w.writeTemp = .ok ())
    (hp : w.openPdf = .ok pdf) (ht : extractTexts pdf.pages = .ok texts)
    (hempty : ∀ t ∈ texts, t = none ∨ t = some "") :
    extract_pdf_text w =
      { success := true, error := none, full_text := "", pages := [],
        page_count := pdf.pages.length,
        metadata := some ⟨pdf.pages.length, pdf.metadata.getD []⟩,
        character_count := some 0, word_count := some 0 } := by
  have hbody : extractBody w = .ok (successResult pdf texts) := by
    unfold extractBody
    rw [hd]
    dsimp only
    rw [if_neg (by decide : ¬ ((200 : Nat) ≠ 200))]
    rw [hb]
    dsimp only
    rw [hw]
    dsimp only
    rw [hp]
    dsimp only
    rw [ht]
  rw [extract_ok w _ hbody]
  unfold successResult
  rw [pageFold_empty texts hempty 1]
  rfl

/-- C10 witness: the document with an absent-text page and an empty-text
page succeeds with no text and page_count 2. -/
theorem c10_success_without_text_witness :
    extract_pdf_text wEmptyDoc =
      { success := true, error := none, full_text := "", pages := [],
        page_count := docEmpty.pages.length,
        metadata := some ⟨docEmpty.pages.length, docEmpty.metadata.getD []⟩,
        character_count := some 0, word_count := some 0 } :=
  c10_success_without_text wEmptyDoc docEmpty [none, some ""]
    rfl rfl rfl rfl rfl (by decide)
